import Mathlib

/-!
Shallow embedding of the v8-format codec (src/v8-format/src/common.rs,
ser.rs, de.rs) — a serde-style encoder and a tag-dispatch decoder for a
structured-clone wire format.

Modelling conventions:
- wire bytes are `Nat` (values < 256), byte buffers are `List Nat`;
- Rust strings are modelled by their UTF-8 byte lists (`String::len` is the
  byte length and `as_bytes` the bytes, so this loses nothing the encoder
  ever reads);
- 64-bit floats are modelled by their 8 native-order bytes (the image of
  `f64::to_ne_bytes`), since the encoder only ever consumes those bytes;
  32-bit floats are handled through an arbitrary cast function standing for
  `(v as f64).to_ne_bytes()` (see `serialize_f32`);
- Rust panics (out-of-bounds slice index, `Option::unwrap` on `None`,
  `Vec::insert` past the end) are a distinguished `panic` outcome, kept
  separate from returned `Err` values.
-/

namespace V8

/-- ser.rs: `pub const FORMAT_VERSION: u8 = 0xD0`. -/
def FORMAT_VERSION : Nat := 0xD0

/-- The division loop of the base-128 varint encoder, written with a
structural fuel argument so the kernel can evaluate it; any fuel at least
the number of 7-bit groups is enough, and the fuel-exhausted base case
coincides with the loop's output for inputs below 128. -/
def varintF : Nat → Nat → List Nat
  | 0, n => [n % 128]
  | fuel + 1, n =>
      if n < 128 then [n] else (n % 128 + 128) :: varintF fuel (n / 128)

/-- Little-endian base-128 varint, the `integer_encoding::VarInt`
`encode_var_vec` for unsigned integers: 7 payload bits per byte, low group
first, high bit set on every byte except the last. `n` itself is an
overgenerous fuel bound (the loop takes at most log base 128 of n steps,
and the two base cases agree for n below 128). -/
def varint (n : Nat) : List Nat := varintF n n

/-- Zig-zag mapping used by `integer_encoding` for signed integers before
varint encoding; as a function of the mathematical value it is
width-independent: nonnegative n goes to 2n, negative n to 2|n| - 1. -/
def zigzag (n : Int) : Nat :=
  if 0 ≤ n then (2 * n).toNat else (2 * (-n) - 1).toNat

/-- `encode_var_vec` on a signed integer: zig-zag then unsigned varint. -/
def svarint (n : Int) : List Nat :=
  varint (zigzag n)

/-- The k little-endian bytes of n (`u64::to_le_bytes` when k = 8). -/
def leBytes : Nat → Nat → List Nat
  | 0, _ => []
  | k + 1, n => n % 256 :: leBytes k (n / 256)

/-- Two's-complement reinterpretation `v as u64` of a 64-bit signed value. -/
def toU64 (v : Int) : Nat := (v % (2 ^ 64 : Int)).toNat

/-- Truncating cast `n as u32` applied by the encoder to lengths. -/
def asU32 (n : Nat) : Nat := n % 4294967296

/-- `u32::MAX`, the limit checked by `serialize_bytes`. -/
def U32_MAX : Nat := 4294967295

/-- The codec's shared error type `crate::common::Error`. common.rs in this
snapshot omits the enum's definition; its variants are reconstructed from
every construction site in src (de.rs builds `Error::Expected` with fields
to_be/but_got and `Error::Unexpected` with fields byte/at; ser.rs builds
`Error::Message(String)`). `at` is spelled `at_` because `at` is a Lean
keyword. -/
inductive Error where
  | expected (to_be but_got : Nat)
  | unexpected (byte at_ : Nat)
  | message (s : String)
deriving DecidableEq

/-- common.rs `ArrayBufferViewType`. -/
inductive ArrayBufferViewType where
  | int8Array
  | uint8Array
  | uint8ClampedArray
  | int16Array
  | uint16Array
  | int32Array
  | uint32Array
  | float32Array
  | float64Array
  | bigInt64Array
  | bigUint64Array
  | dataView
deriving DecidableEq

/-- common.rs `ErrorType`. -/
inductive ErrorType where
  | evalError
  | rangeError
  | referenceError
  | syntaxError
  | typeError
  | uriError
  | unknown
deriving DecidableEq

/-- common.rs `Value`, the canonical value tree. `HashMap`/`HashSet`
payloads are modelled as association/element lists in one fixed iteration
order (the source iterates the hash containers in their own unspecified
order; the encoder's output for one run corresponds to the list order
chosen here). Strings are UTF-8 byte lists, doubles their 8 native-order
bytes. -/
inductive Value where
  | undefined
  | null
  | boolean (b : Bool)
  | int32 (v : Int)
  | uint32 (v : Nat)
  | double (bytes : List Nat)
  | bigInt (v : Int)
  | string (s : List Nat) (utf16 : Bool)
  | objectReference (id : Nat)
  | object (fields : List (List Nat × Value))
  | array (elems : List Value)
  | date (bytes : List Nat)
  | numberObject (bytes : List Nat)
  | bigIntObject
  | stringObject (s : List Nat)
  | regExp (expr : List Nat) (flags : Nat)
  | map (entries : List (Value × Value))
  | set (elems : List Value)
  | arrayBuffer (bytes : List Nat)
  | arrayBufferTransfer (transfer_id : Nat)
  | arrayBufferView (ty : ArrayBufferViewType) (byte_offset byte_length : Nat)
      (buffer : List Nat)
  | sharedArrayBuffer (transfer_id : Nat)
  | error (ty : ErrorType) (message : Option (List Nat)) (stack : Option (List Nat))

/-!
The pre-serde Value writer (ser.rs "Old impl, non-serde one"). Each
`write_*` method appends to `self.data`; here each is a function from the
current data list to the extended one. Tag bytes appear as their numeric
ASCII codes.
-/

/-- ser.rs `write_undefined`: push the undefined tag (0x5F). -/
def write_undefined (data : List Nat) : List Nat := data ++ [0x5F]

/-- ser.rs `write_null`: push the null tag (0x30). -/
def write_null (data : List Nat) : List Nat := data ++ [0x30]

/-- ser.rs `write_boolean`: 0x54 for true, 0x46 for false. -/
def write_boolean (value : Bool) (data : List Nat) : List Nat :=
  data ++ [if value then 0x54 else 0x46]

/-- ser.rs `write_int32`: tag 0x49 plus zig-zag varint. -/
def write_int32 (value : Int) (data : List Nat) : List Nat :=
  data ++ 0x49 :: svarint value

/-- ser.rs `write_uint32`: tag 0x55 plus plain varint. -/
def write_uint32 (value : Nat) (data : List Nat) : List Nat :=
  data ++ 0x55 :: varint value

/-- ser.rs `write_double`: tag 0x4E plus the 8 native-order bytes. -/
def write_double (value : List Nat) (data : List Nat) : List Nat :=
  data ++ 0x4E :: value

/-- ser.rs `write_bigint`: tag 0x5A, a varint flags word built as
sign-bit-or (1 when negative) then or 8 * 2, then `value as u64` in
little-endian bytes. -/
def write_bigint (value : Int) (data : List Nat) : List Nat :=
  let flags := if value < 0 then Nat.lor 0 1 else 0
  let flags := Nat.lor flags (8 * 2)
  data ++ 0x5A :: (varint flags ++ leBytes 8 (toU64 value))

/-- ser.rs `write_string`: tag 0x63 when utf16 else 0x22, varint byte
length, raw bytes. -/
def write_string (value : List Nat) (utf16 : Bool) (data : List Nat) : List Nat :=
  data ++ (if utf16 then 0x63 else 0x22) :: (varint value.length ++ value)

/-- ser.rs `write_object_reference`: tag 0x5E plus varint id. -/
def write_object_reference (id : Nat) (data : List Nat) : List Nat :=
  data ++ 0x5E :: varint id

/-- ser.rs `write_date`: tag 0x44 plus 8 native-order bytes. -/
def write_date (value : List Nat) (data : List Nat) : List Nat :=
  data ++ 0x44 :: value

/-- ser.rs `write_number_object`: tag 0x6E plus 8 native-order bytes. -/
def write_number_object (value : List Nat) (data : List Nat) : List Nat :=
  data ++ 0x6E :: value

/-- ser.rs `write_bigint_object`: the bare tag 0x7A, payload unimplemented. -/
def write_bigint_object (data : List Nat) : List Nat := data ++ [0x7A]

/-- ser.rs `write_string_object`: tag 0x73, varint of the length cast to
u32, raw bytes. -/
def write_string_object (value : List Nat) (data : List Nat) : List Nat :=
  data ++ 0x73 :: (varint (asU32 value.length) ++ value)

/-- ser.rs `write_regexp`: tag 0x52, varint of pattern length cast to u32,
pattern bytes, varint flags. -/
def write_regexp (expr : List Nat) (flags : Nat) (data : List Nat) : List Nat :=
  data ++ 0x52 :: (varint (asU32 expr.length) ++ expr ++ varint flags)

/-- ser.rs `write_array_buffer`: tag 0x42, varint of the length cast to
u32, raw bytes. -/
def write_array_buffer (value : List Nat) (data : List Nat) : List Nat :=
  data ++ 0x42 :: (varint (asU32 value.length) ++ value)

/-- ser.rs `write_array_buffer_transfer`: tag 0x74 plus varint id. -/
def write_array_buffer_transfer (transfer_id : Nat) (data : List Nat) : List Nat :=
  data ++ 0x74 :: varint transfer_id

/-- The single-character subtype selector of `write_array_buffer_view`. -/
def viewTypeTag : ArrayBufferViewType → Nat
  | .int8Array => 0x62
  | .uint8Array => 0x42
  | .uint8ClampedArray => 0x43
  | .int16Array => 0x77
  | .uint16Array => 0x57
  | .int32Array => 0x64
  | .uint32Array => 0x44
  | .float32Array => 0x66
  | .float64Array => 0x46
  | .bigInt64Array => 0x71
  | .bigUint64Array => 0x51
  | .dataView => 0x3F

/-- ser.rs `write_array_buffer_view`: the backing buffer's full 0x42
record, then tag 0x56, the subtype byte, varint offset, varint length. -/
def write_array_buffer_view (ty : ArrayBufferViewType)
    (byte_offset byte_length : Nat) (buffer : List Nat)
    (data : List Nat) : List Nat :=
  write_array_buffer buffer data ++
    0x56 :: viewTypeTag ty :: (varint byte_offset ++ varint byte_length)

/-- ser.rs `write_shared_array_buffer`: tag 0x75 plus varint id. -/
def write_shared_array_buffer (transfer_id : Nat) (data : List Nat) : List Nat :=
  data ++ 0x75 :: varint transfer_id

/-- The optional one-letter error-kind byte of `write_error` (none for
Unknown). -/
def errorTypeTag : ErrorType → Option Nat
  | .evalError => Option.some 0x45
  | .rangeError => Option.some 0x52
  | .referenceError => Option.some 0x46
  | .syntaxError => Option.some 0x43
  | .typeError => Option.some 0x54
  | .uriError => Option.some 0x55
  | .unknown => Option.none

/-- ser.rs `write_error`: tag 0x72, optional kind byte, optional 0x6D plus
one-byte-string message, optional 0x73 plus one-byte-string stack,
terminator 0x2E. -/
def write_error (ty : ErrorType) (message : Option (List Nat))
    (stack : Option (List Nat)) (data : List Nat) : List Nat :=
  let data := data ++ [0x72]
  let data :=
    match errorTypeTag ty with
    | Option.some ch => data ++ [ch]
    | Option.none => data
  let data :=
    match message with
    | Option.some m => write_string m false (data ++ [0x6D])
    | Option.none => data
  let data :=
    match stack with
    | Option.some st => write_string st false (data ++ [0x73])
    | Option.none => data
  data ++ [0x2E]

mutual

/-- ser.rs `write_value`, dispatching on the Value variant; composite
variants inline the loops of `write_object` / `write_array` / `write_map` /
`write_set`: object pushes 0x6F, writes (one-byte-string key, value) pairs,
then pushes 0x7B and the varint field count cast to u32; array pushes 0x41,
the varint length, the elements, then 0x24, a zero byte, and the same
length varint again; map pushes 0x3B, the interleaved pairs, then 0x3A and
varint of (size cast to u32, times 2 is not applied here — the old impl
writes the plain size); set pushes 0x27, elements, then 0x2C and varint
size. -/
def write_value : Value → List Nat → List Nat
  | .undefined, data => write_undefined data
  | .null, data => write_null data
  | .boolean value, data => write_boolean value data
  | .int32 value, data => write_int32 value data
  | .uint32 value, data => write_uint32 value data
  | .double value, data => write_double value data
  | .bigInt value, data => write_bigint value data
  | .string value utf16, data => write_string value utf16 data
  | .objectReference id, data => write_object_reference id data
  | .object fields, data =>
      write_object_fields fields (data ++ [0x6F]) ++
        0x7B :: varint (asU32 fields.length)
  | .array elems, data =>
      write_array_elems elems (data ++ 0x41 :: varint elems.length) ++
        0x24 :: 0x00 :: varint elems.length
  | .date value, data => write_date value data
  | .numberObject value, data => write_number_object value data
  | .bigIntObject, data => write_bigint_object data
  | .stringObject value, data => write_string_object value data
  | .regExp expr flags, data => write_regexp expr flags data
  | .map entries, data =>
      write_map_entries entries (data ++ [0x3B]) ++
        0x3A :: varint (asU32 entries.length)
  | .set elems, data =>
      write_set_elems elems (data ++ [0x27]) ++
        0x2C :: varint (asU32 elems.length)
  | .arrayBuffer value, data => write_array_buffer value data
  | .arrayBufferTransfer transfer_id, data =>
      write_array_buffer_transfer transfer_id data
  | .arrayBufferView ty byte_offset byte_length buffer, data =>
      write_array_buffer_view ty byte_offset byte_length buffer data
  | .sharedArrayBuffer transfer_id, data =>
      write_shared_array_buffer transfer_id data
  | .error ty message stack, data => write_error ty message stack data

/-- The key/value loop of ser.rs `write_object`. -/
def write_object_fields : List (List Nat × Value) → List Nat → List Nat
  | [], data => data
  | (k, v) :: rest, data =>
      write_object_fields rest (write_value v (write_string k false data))

/-- The element loop of ser.rs `write_array`. -/
def write_array_elems : List Value → List Nat → List Nat
  | [], data => data
  | v :: rest, data => write_array_elems rest (write_value v data)

/-- The pair loop of ser.rs `write_map`. -/
def write_map_entries : List (Value × Value) → List Nat → List Nat
  | [], data => data
  | (k, v) :: rest, data =>
      write_map_entries rest (write_value v (write_value k data))

/-- The element loop of ser.rs `write_set`. -/
def write_set_elems : List Value → List Nat → List Nat
  | [], data => data
  | v :: rest, data => write_set_elems rest (write_value v data)

end

/-- Encoding a Value with the to_vec framing: the 2-byte header 0xFF,
FORMAT_VERSION followed by the `write_value` image. (`to_vec` itself only
accepts serde inputs; this is the §4.2 `encode(Value)` contract realized
with the old-impl writer.) -/
def encodeValue (v : Value) : List Nat :=
  write_value v [0xFF, FORMAT_VERSION]

/-!
The decoder (de.rs `Deserializer`). The struct holds the input slice and a
forward cursor `offset`; here each method is a function of (data, offset).
`Deserializer::byte` indexes `self.data[self.offset]` with no bounds check,
so an out-of-range cursor is a Rust panic, modelled as the distinguished
`DRes.panic` outcome (never a returned error).
-/

/-- Result of a decoder computation: a returned value, a returned
`Err(Error)`, or a panic (out-of-bounds index). -/
inductive DRes (α : Type) where
  | ok (a : α)
  | err (e : Error)
  | panic
deriving DecidableEq

/-- de.rs `Deserializer::byte`: `self.data[self.offset]`; `Option.none`
models the out-of-bounds panic. -/
def byteAt (data : List Nat) (offset : Nat) : Option Nat := data.get? offset

/-- de.rs `expect_next`: compare the current byte with `to_be`; on match
advance the cursor (returning the new offset), otherwise return
`Error::Expected`. Reading past the end panics. -/
def expect_next (to_be : Nat) (data : List Nat) (offset : Nat) : DRes Nat :=
  match byteAt data offset with
  | Option.none => .panic
  | Option.some b =>
      if b = to_be then .ok (offset + 1) else .err (.expected to_be b)

/-- de.rs `is_version` as a predicate on the current byte. -/
def is_version (b : Nat) : Bool := b = 0xFF

/-- de.rs `is_undefined` as a predicate on the current byte. -/
def is_undefined (b : Nat) : Bool := b = 0x5F

/-- de.rs `is_null` as a predicate on the current byte. -/
def is_null (b : Nat) : Bool := b = 0x30

/-- de.rs `is_bool` as a predicate on the current byte. -/
def is_bool (b : Nat) : Bool := b = 0x54 || b = 0x46

/-- de.rs `parse_undefined`: expect the 0x5F tag and yield Undefined. -/
def parse_undefined (data : List Nat) (offset : Nat) : DRes (Value × Nat) :=
  match expect_next 0x5F data offset with
  | .ok offset' => .ok (Value.undefined, offset')
  | .err e => .err e
  | .panic => .panic

/-- de.rs `parse_null`: expect the 0x30 tag; the source then returns
`Value::Undefined` (not Null) — mirrored as written. -/
def parse_null (data : List Nat) (offset : Nat) : DRes (Value × Nat) :=
  match expect_next 0x30 data offset with
  | .ok offset' => .ok (Value.undefined, offset')
  | .err e => .err e
  | .panic => .panic

/-- de.rs `parse_bool`: 0x54 yields Boolean true, 0x46 Boolean false,
anything else `Error::Unexpected` at the current offset; on success the
cursor advances. -/
def parse_bool (data : List Nat) (offset : Nat) : DRes (Value × Nat) :=
  match byteAt data offset with
  | Option.none => .panic
  | Option.some b =>
      if b = 0x54 then .ok (Value.boolean true, offset + 1)
      else if b = 0x46 then .ok (Value.boolean false, offset + 1)
      else .err (.unexpected b offset)

/-- de.rs `parse`, the top-level tag dispatch: it tries, in order,
undefined, null and boolean, and returns `Error::Unexpected` for every
other tag byte. (The `is_*` guards all read the same current byte, so the
one `byteAt` here stands for all of them; an empty remainder panics at the
first guard.) -/
def parse (data : List Nat) (offset : Nat) : DRes (Value × Nat) :=
  match byteAt data offset with
  | Option.none => .panic
  | Option.some b =>
      if is_undefined b then parse_undefined data offset
      else if is_null b then parse_null data offset
      else if is_bool b then parse_bool data offset
      else .err (.unexpected b offset)

/-- de.rs `Deserializer::deserialize`: reset the cursor, skip two bytes
when the first byte is the 0xFF version marker (the check itself panics on
empty input), then `parse` one Value. -/
def deserialize (data : List Nat) : DRes Value :=
  match byteAt data 0 with
  | Option.none => .panic
  | Option.some b =>
      let offset := if is_version b then 2 else 0
      match parse data offset with
      | .ok (v, _) => .ok v
      | .err e => .err e
      | .panic => .panic

/-!
The serde serializer (ser.rs `impl ser::Serializer for &mut Serializer` and
the seven `Serialize*` companion impls). The struct's four fields are
mirrored directly; methods whose source bodies can only return `Ok` are
functions `Serializer → Serializer`, the fallible or panicking ones return
`SRes`.
-/

/-- ser.rs `struct Serializer`: the output buffer plus the
deferred-length bookkeeping trio. -/
structure Serializer where
  data : List Nat
  start_pos : Nat
  current_len : Option Nat
  lazy_len : Nat
deriving DecidableEq

/-- Result of a fallible serializer step: the updated serializer, a
returned `Err(Error)`, or a panic (`Option::unwrap` on `None`, or
`Vec::insert` past the end). -/
inductive SRes where
  | ok (s : Serializer)
  | err (e : Error)
  | panic
deriving DecidableEq

/-- `self.data.push(b)`. -/
def push (s : Serializer) (b : Nat) : Serializer :=
  { s with data := s.data ++ [b] }

/-- `self.data.extend(bs)`. -/
def extend (s : Serializer) (bs : List Nat) : Serializer :=
  { s with data := s.data ++ bs }

/-- ser.rs `serialize_bool`: push 0x54 / 0x46. -/
def serialize_bool (v : Bool) (s : Serializer) : Serializer :=
  push s (if v then 0x54 else 0x46)

/-- ser.rs `serialize_i8`: tag 0x49 plus the signed (zig-zag) varint. -/
def serialize_i8 (v : Int) (s : Serializer) : Serializer :=
  extend (push s 0x49) (svarint v)

/-- ser.rs `serialize_i16`: tag 0x49 plus the signed (zig-zag) varint. -/
def serialize_i16 (v : Int) (s : Serializer) : Serializer :=
  extend (push s 0x49) (svarint v)

/-- ser.rs `serialize_i32`: tag 0x49 plus the signed (zig-zag) varint. -/
def serialize_i32 (v : Int) (s : Serializer) : Serializer :=
  extend (push s 0x49) (svarint v)

/-- ser.rs `serialize_i64`: tag 0x5A, varint of the flags word (built as
or of 1 shifted left 0, then or 8 * 2 — the sign bit is set
unconditionally), then `v as u64` little-endian. -/
def serialize_i64 (v : Int) (s : Serializer) : Serializer :=
  let flags := Nat.lor 0 (Nat.shiftLeft 1 0)
  let flags := Nat.lor flags (8 * 2)
  extend (extend (push s 0x5A) (varint flags)) (leBytes 8 (toU64 v))

/-- ser.rs `serialize_u8`: tag 0x55 plus plain varint. -/
def serialize_u8 (v : Nat) (s : Serializer) : Serializer :=
  extend (push s 0x55) (varint v)

/-- ser.rs `serialize_u16`: tag 0x55 plus plain varint. -/
def serialize_u16 (v : Nat) (s : Serializer) : Serializer :=
  extend (push s 0x55) (varint v)

/-- ser.rs `serialize_u32`: tag 0x55 plus plain varint. -/
def serialize_u32 (v : Nat) (s : Serializer) : Serializer :=
  extend (push s 0x55) (varint v)

/-- ser.rs `serialize_u64`: tag 0x5A, varint of the flags word 8 * 2 (no
sign bit), then the value little-endian. -/
def serialize_u64 (v : Nat) (s : Serializer) : Serializer :=
  let flags := Nat.lor 0 (8 * 2)
  extend (extend (push s 0x5A) (varint flags)) (leBytes 8 (v % 2 ^ 64))

/-- ser.rs `serialize_f32`: tag 0x4E plus `(v as f64).to_ne_bytes()`. The
float is carried as an abstract representation `v : List Nat` and the host
cast-and-reinterpret composite `fun x => (x as f64).to_ne_bytes()` is the
explicit argument `c32`; `serialize_f64` receives the 8 bytes directly. -/
def serialize_f32 (c32 : List Nat → List Nat) (v : List Nat) (s : Serializer) :
    Serializer :=
  extend (push s 0x4E) (c32 v)

/-- ser.rs `serialize_f64`: tag 0x4E plus `v.to_ne_bytes()` (the model of
an f64 value is already that byte list). -/
def serialize_f64 (v : List Nat) (s : Serializer) : Serializer :=
  extend (push s 0x4E) v

/-- ser.rs `serialize_char`: tag 0x22, the literal length byte 1, and
`v as u8` — the char's code point truncated to its low byte. -/
def serialize_char (v : Nat) (s : Serializer) : Serializer :=
  push (push (push s 0x22) 1) (v % 256)

/-- ser.rs `serialize_str`: tag 0x22, varint of the UTF-8 byte length, raw
bytes. -/
def serialize_str (v : List Nat) (s : Serializer) : Serializer :=
  extend (extend (push s 0x22) (varint v.length)) v

/-- ser.rs `serialize_bytes`: push the 0x42 tag, then fail with the one
size-limit message when the buffer exceeds u32::MAX, else varint length
plus raw bytes. (The tag lands in the buffer before the check, exactly as
in the source.) -/
def serialize_bytes (v : List Nat) (s : Serializer) : SRes :=
  let s := push s 0x42
  if v.length > U32_MAX then
    .err (.message "Bytes cannot be larger than u32::MAX")
  else
    .ok (extend (extend s (varint (asU32 v.length))) v)

/-- ser.rs `serialize_none`: the undefined tag 0x5F. -/
def serialize_none (s : Serializer) : Serializer :=
  push s 0x5F

/-- ser.rs `serialize_unit`: delegates to `serialize_none`. -/
def serialize_unit (s : Serializer) : Serializer :=
  serialize_none s

/-- ser.rs `serialize_unit_struct`: an empty object, 0x6F 0x7B 0x00. -/
def serialize_unit_struct (s : Serializer) : Serializer :=
  push (push (push s 0x6F) 0x7B) 0x00

/-- ser.rs `serialize_unit_variant`: 0x6F, the variant name as a
one-byte string, an undefined payload, then 0x7B and the literal count
byte 1. -/
def serialize_unit_variant (variant : List Nat) (s : Serializer) : Serializer :=
  push (push (serialize_none (serialize_str variant (push s 0x6F))) 0x7B) 0x01

/-- ser.rs `serialize_seq`: push 0x41, store the advertised length in
`current_len`, zero `lazy_len`; with a known length extend with its u32
varint, otherwise record `start_pos` as the reserved insert position. -/
def serialize_seq (len : Option Nat) (s : Serializer) : Serializer :=
  let s := push s 0x41
  let s := { s with current_len := len, lazy_len := 0 }
  match len with
  | Option.some l => extend s (varint (asU32 l))
  | Option.none => { s with start_pos := s.data.length }

/-- ser.rs `serialize_tuple`: push 0x41 and the u32 varint length, store
it in `current_len` (`lazy_len` untouched). -/
def serialize_tuple (len : Nat) (s : Serializer) : Serializer :=
  let s := extend (push s 0x41) (varint (asU32 len))
  { s with current_len := Option.some len }

/-- ser.rs `serialize_tuple_struct`: identical to `serialize_tuple`. -/
def serialize_tuple_struct (len : Nat) (s : Serializer) : Serializer :=
  let s := extend (push s 0x41) (varint (asU32 len))
  { s with current_len := Option.some len }

/-- ser.rs `serialize_tuple_variant`: 0x6F, the variant name string, then
the tuple opening 0x41 plus u32 varint length, storing `current_len`. -/
def serialize_tuple_variant (variant : List Nat) (len : Nat) (s : Serializer) :
    Serializer :=
  let s := serialize_str variant (push s 0x6F)
  let s := extend (push s 0x41) (varint (asU32 len))
  { s with current_len := Option.some len }

/-- ser.rs `serialize_map`: push 0x3B, store the advertised length, zero
`lazy_len`; no length bytes and no reserved position are written. -/
def serialize_map (len : Option Nat) (s : Serializer) : Serializer :=
  let s := push s 0x3B
  { s with current_len := len, lazy_len := 0 }

/-- ser.rs `serialize_struct`: push 0x6F, store the field count, zero
`lazy_len`. -/
def serialize_struct (len : Nat) (s : Serializer) : Serializer :=
  let s := push s 0x6F
  { s with current_len := Option.some len, lazy_len := 0 }

/-- ser.rs `serialize_struct_variant`: 0x6F, the variant name string,
another 0x6F for the inner object, store the field count, zero
`lazy_len`. -/
def serialize_struct_variant (variant : List Nat) (len : Nat) (s : Serializer) :
    Serializer :=
  let s := serialize_str variant (push s 0x6F)
  let s := push s 0x6F
  { s with current_len := Option.some len, lazy_len := 0 }

/-- The insertion loop of `SerializeSeq::end`: each byte is
`Vec::insert`ed at `pos`, `pos` advancing by one; `Vec::insert` panics
(`Option.none`) when `pos` exceeds the current length. -/
def insert_loop (data : List Nat) (pos : Nat) (bs : List Nat) :
    Option (List Nat) :=
  match bs with
  | [] => Option.some data
  | b :: rest =>
      if pos ≤ data.length then
        insert_loop (data.take pos ++ b :: data.drop pos) (pos + 1) rest
      else
        Option.none

/-- ser.rs `SerializeSeq::end`: when the length was deferred
(`current_len` is None), insert the u32 varint of `lazy_len` at
`start_pos`; then push 0x24, a zero byte, and the u32 varint of
`current_len.unwrap_or(lazy_len)`. -/
def seq_end (s : Serializer) : SRes :=
  let inserted : Option Serializer :=
    if s.current_len.isNone then
      match insert_loop s.data s.start_pos (varint (asU32 s.lazy_len)) with
      | Option.some d => Option.some { s with data := d }
      | Option.none => Option.none
    else Option.some s
  match inserted with
  | Option.none => .panic
  | Option.some s =>
      .ok (extend (push (push s 0x24) 0x00)
        (varint (asU32 (s.current_len.getD s.lazy_len))))

/-- ser.rs `SerializeTuple::end`: push 0x24, zero, and the u32 varint of
`current_len.unwrap()` — a panic when `current_len` is None. -/
def tuple_end (s : Serializer) : SRes :=
  match s.current_len with
  | Option.none => .panic
  | Option.some n =>
      .ok (extend (push (push s 0x24) 0x00) (varint (asU32 n)))

/-- ser.rs `SerializeTupleStruct::end`: identical to `SerializeTuple::end`
(unwrap panics on None). -/
def tuple_struct_end (s : Serializer) : SRes :=
  match s.current_len with
  | Option.none => .panic
  | Option.some n =>
      .ok (extend (push (push s 0x24) 0x00) (varint (asU32 n)))

/-- ser.rs `SerializeTupleVariant::end`: the tuple close 0x24, zero,
varint of `current_len.unwrap()`, then the enclosing variant object close
0x7B with the literal count byte 1. -/
def tuple_variant_end (s : Serializer) : SRes :=
  match s.current_len with
  | Option.none => .panic
  | Option.some n =>
      .ok (push (push (extend (push (push s 0x24) 0x00) (varint (asU32 n))) 0x7B)
        0x01)

/-- ser.rs `SerializeMap::end`: push 0x3A and the u32 varint of
`current_len.unwrap_or(lazy_len) * 2` (two wire items per entry). -/
def map_end (s : Serializer) : Serializer :=
  extend (push s 0x3A) (varint (asU32 (s.current_len.getD s.lazy_len * 2)))

/-- ser.rs `SerializeStruct::end`: push 0x7B and the u32 varint of
`current_len.unwrap()` — a panic when `current_len` is None. -/
def struct_end (s : Serializer) : SRes :=
  match s.current_len with
  | Option.none => .panic
  | Option.some n => .ok (extend (push s 0x7B) (varint (asU32 n)))

/-- ser.rs `SerializeStructVariant::end`: the inner object close 0x7B with
varint of `current_len.unwrap()`, then the outer variant close 0x7B with
the literal count byte 1. -/
def struct_variant_end (s : Serializer) : SRes :=
  match s.current_len with
  | Option.none => .panic
  | Option.some n =>
      .ok (push (push (extend (push s 0x7B) (varint (asU32 n))) 0x7B) 0x01)

/-!
Generic serializable inputs. `GValue` enumerates the call shapes a serde
`Serialize` implementation can drive into the adapter: one constructor per
`serialize_*` entry point. Sequences and maps carry a `known` flag choosing
between `serialize_seq(Some(len))` (a Vec-like producer, whose advertised
length is its element count) and `serialize_seq(None)` (a producer of
unknown length). The child lists are the mutual inductives
`GList`/`GEntries`/`GFields` so that the serializer below is plain
structural recursion.
-/

mutual

inductive GValue where
  | gbool (v : Bool)
  | gi8 (v : Int)
  | gi16 (v : Int)
  | gi32 (v : Int)
  | gi64 (v : Int)
  | gu8 (v : Nat)
  | gu16 (v : Nat)
  | gu32 (v : Nat)
  | gu64 (v : Nat)
  | gf32 (v : List Nat)
  | gf64 (v : List Nat)
  | gchar (c : Nat)
  | gstr (v : List Nat)
  | gbytes (v : List Nat)
  | gnone
  | gsome (v : GValue)
  | gunit
  | gunitStruct
  | gunitVariant (variant : List Nat)
  | gnewtypeStruct (v : GValue)
  | gnewtypeVariant (variant : List Nat) (v : GValue)
  | gseq (known : Bool) (elems : GList)
  | gtuple (elems : GList)
  | gtupleStruct (elems : GList)
  | gtupleVariant (variant : List Nat) (elems : GList)
  | gmap (known : Bool) (entries : GEntries)
  | gstruct (fields : GFields)
  | gstructVariant (variant : List Nat) (fields : GFields)

inductive GList where
  | nil
  | cons (v : GValue) (rest : GList)

inductive GEntries where
  | nil
  | cons (k v : GValue) (rest : GEntries)

inductive GFields where
  | nil
  | cons (key : List Nat) (v : GValue) (rest : GFields)

end

/-- Number of elements of a `GList`. -/
def GList.length : GList → Nat
  | .nil => 0
  | .cons _ rest => rest.length + 1

/-- Number of entries of a `GEntries`. -/
def GEntries.length : GEntries → Nat
  | .nil => 0
  | .cons _ _ rest => rest.length + 1

/-- Number of fields of a `GFields`. -/
def GFields.length : GFields → Nat
  | .nil => 0
  | .cons _ _ rest => rest.length + 1

mutual

/-- Serialization of a generic input, following `value.serialize(&mut
serializer)` through the `ser::Serializer` impl: each constructor maps to
its `serialize_*` method; composites open, stream their children through
the companion-impl walkers, and close with the matching `end`. `c32` is
the host's `fun x => (x as f64).to_ne_bytes()` used by `serialize_f32`. -/
def serGV (c32 : List Nat → List Nat) : GValue → Serializer → SRes
  | .gbool v, s => .ok (serialize_bool v s)
  | .gi8 v, s => .ok (serialize_i8 v s)
  | .gi16 v, s => .ok (serialize_i16 v s)
  | .gi32 v, s => .ok (serialize_i32 v s)
  | .gi64 v, s => .ok (serialize_i64 v s)
  | .gu8 v, s => .ok (serialize_u8 v s)
  | .gu16 v, s => .ok (serialize_u16 v s)
  | .gu32 v, s => .ok (serialize_u32 v s)
  | .gu64 v, s => .ok (serialize_u64 v s)
  | .gf32 v, s => .ok (serialize_f32 c32 v s)
  | .gf64 v, s => .ok (serialize_f64 v s)
  | .gchar c, s => .ok (serialize_char c s)
  | .gstr v, s => .ok (serialize_str v s)
  | .gbytes v, s => serialize_bytes v s
  | .gnone, s => .ok (serialize_none s)
  | .gsome v, s => serGV c32 v s
  | .gunit, s => .ok (serialize_unit s)
  | .gunitStruct, s => .ok (serialize_unit_struct s)
  | .gunitVariant variant, s => .ok (serialize_unit_variant variant s)
  | .gnewtypeStruct v, s => serGV c32 v s
  | .gnewtypeVariant variant v, s =>
      let s := serialize_str variant (push s 0x6F)
      match serGV c32 v s with
      | .ok s => .ok (push (push s 0x7B) 0x01)
      | r => r
  | .gseq known elems, s =>
      let s := serialize_seq
        (if known then Option.some elems.length else Option.none) s
      match serSeqElems c32 elems s with
      | .ok s => seq_end s
      | r => r
  | .gtuple elems, s =>
      let s := serialize_tuple elems.length s
      match serTupleElems c32 elems s with
      | .ok s => tuple_end s
      | r => r
  | .gtupleStruct elems, s =>
      let s := serialize_tuple_struct elems.length s
      match serTupleElems c32 elems s with
      | .ok s => tuple_struct_end s
      | r => r
  | .gtupleVariant variant elems, s =>
      let s := serialize_tuple_variant variant elems.length s
      match serTupleElems c32 elems s with
      | .ok s => tuple_variant_end s
      | r => r
  | .gmap known entries, s =>
      let s := serialize_map
        (if known then Option.some entries.length else Option.none) s
      match serMapEntries c32 entries s with
      | .ok s => .ok (map_end s)
      | r => r
  | .gstruct fields, s =>
      let s := serialize_struct fields.length s
      match serStructFields c32 fields s with
      | .ok s => struct_end s
      | r => r
  | .gstructVariant variant fields, s =>
      let s := serialize_struct_variant variant fields.length s
      match serStructFields c32 fields s with
      | .ok s => struct_variant_end s
      | r => r

/-- The `SerializeSeq::serialize_element` loop: when the length was
deferred (`current_len` is None) bump `lazy_len`, then serialize the
element; errors abort the stream. -/
def serSeqElems (c32 : List Nat → List Nat) : GList → Serializer → SRes
  | .nil, s => .ok s
  | .cons v rest, s =>
      let s :=
        if s.current_len.isNone then { s with lazy_len := s.lazy_len + 1 }
        else s
      match serGV c32 v s with
      | .ok s => serSeqElems c32 rest s
      | r => r

/-- The `SerializeTuple`/`SerializeTupleStruct`/`SerializeTupleVariant`
element loop: plain recursive serialization, no counting. -/
def serTupleElems (c32 : List Nat → List Nat) : GList → Serializer → SRes
  | .nil, s => .ok s
  | .cons v rest, s =>
      match serGV c32 v s with
      | .ok s => serTupleElems c32 rest s
      | r => r

/-- The `SerializeMap` entry loop: `serialize_key` is a plain recursive
serialization, `serialize_value` bumps `lazy_len` first when the length
was deferred. -/
def serMapEntries (c32 : List Nat → List Nat) : GEntries → Serializer → SRes
  | .nil, s => .ok s
  | .cons k v rest, s =>
      match serGV c32 k s with
      | .ok s =>
          let s :=
            if s.current_len.isNone then { s with lazy_len := s.lazy_len + 1 }
            else s
          match serGV c32 v s with
          | .ok s => serMapEntries c32 rest s
          | r => r
      | r => r

/-- The `SerializeStruct`/`SerializeStructVariant` field loop: the key via
`serialize_str`, then the value recursively. -/
def serStructFields (c32 : List Nat → List Nat) : GFields → Serializer → SRes
  | .nil, s => .ok s
  | .cons key v rest, s =>
      let s := serialize_str key s
      match serGV c32 v s with
      | .ok s => serStructFields c32 rest s
      | r => r

end

/-- Result of ser.rs `to_vec`: the buffer, a returned error, or a panic. -/
inductive EncodeResult where
  | ok (bytes : List Nat)
  | err (e : Error)
  | panic
deriving DecidableEq

/-- ser.rs `to_vec`: serialize into a fresh Serializer whose buffer starts
with the 2-byte header 0xFF, FORMAT_VERSION, and return the buffer. -/
def to_vec (c32 : List Nat → List Nat) (value : GValue) : EncodeResult :=
  match serGV c32 value
      { data := [0xFF, FORMAT_VERSION], start_pos := 0,
        current_len := Option.none, lazy_len := 0 } with
  | .ok s => .ok s.data
  | .err e => .err e
  | .panic => .panic

/-- A concrete stand-in for the f32 cast function, used wherever a claim
is evaluated at one input (any function fits those claims). -/
def cast32id : List Nat → List Nat := fun b => b

/-- The single encode-time error value the serializer can return
(ser.rs `serialize_bytes`). -/
def bigErr : Error := .message "Bytes cannot be larger than u32::MAX"

/-!
Claim theorems.
-/

/-- Claim C1 (code bug): round-trip fails already at `Value::Null` — the
encoder writes the null tag 0x30, but `parse_null` returns
`Value::Undefined`, so decoding the encoding of Null yields Undefined, not
Null as the round-trip property requires. -/
theorem claim_c1_roundtrip_bug :
    encodeValue Value.null = [255, 208, 48] ∧
    deserialize (encodeValue Value.null) = DRes.ok Value.undefined ∧
    DRes.ok Value.undefined ≠ (DRes.ok Value.null : DRes Value) :=
  ⟨rfl, rfl, by simp⟩

/-- Claim C2 (code bug): decoding the empty input, the single byte 0xFF,
and the header-only prefix of a valid stream are all panics
(out-of-bounds indexing in `Deserializer::byte`, which has no length
check), not reported failures — and a panic is never a returned error. -/
theorem claim_c2_truncation_panics :
    deserialize [] = DRes.panic ∧
    deserialize [255] = DRes.panic ∧
    deserialize [255, 208] = DRes.panic ∧
    encodeValue (Value.boolean true) = [255, 208, 84] ∧
    ∀ e : Error, (DRes.panic : DRes Value) ≠ DRes.err e :=
  ⟨rfl, rfl, rfl, rfl, fun _ => by simp⟩

/-- Claim C3 (code bug): the top-level dispatch of `parse` handles only
the undefined/null/boolean tags; the encoder's own output for uint32 1
(tag 0x55) makes decode fail with `Error::Unexpected` at the tag byte. -/
theorem claim_c3_missing_handlers :
    to_vec cast32id (.gu32 1) = .ok [255, 208, 85, 1] ∧
    encodeValue (Value.uint32 1) = [255, 208, 85, 1] ∧
    deserialize [255, 208, 85, 1] = .err (.unexpected 85 2) :=
  ⟨rfl, rfl, rfl⟩

/-- Claim C7 counterexample: the headered and headerless decodes of the
same payload are not identical results. For the payload consisting of the
single byte 0x55 both fail, but the reported offsets differ by the header
width; for a payload whose first byte is 0xFF, the bare decode treats the
payload's own first two bytes as a header and succeeds while the headered
decode fails. -/
theorem claim_c7_counterexample :
    deserialize [85] = .err (.unexpected 85 0) ∧
    deserialize [255, 208, 85] = .err (.unexpected 85 2) ∧
    deserialize [85] ≠ deserialize [255, 208, 85] ∧
    deserialize [255, 84, 84] = .ok (.boolean true) ∧
    deserialize [255, 208, 255, 84, 84] = .err (.unexpected 255 2) ∧
    deserialize [255, 84, 84] ≠ deserialize [255, 208, 255, 84, 84] := by
  refine ⟨rfl, rfl, ?_, rfl, rfl, ?_⟩
  · show DRes.err (Error.unexpected 85 0) ≠ DRes.err (Error.unexpected 85 2)
    simp
  · show DRes.ok (Value.boolean true) ≠ DRes.err (Error.unexpected 255 2)
    simp

/-- How a decode result changes under the 2-byte header: successes and
panics are unchanged, and an unexpected-tag error keeps its byte but
reports an offset larger by the header width. -/
def shiftHeaderErr : DRes Value → DRes Value
  | .err (.unexpected b a) => .err (.unexpected b (a + 2))
  | r => r

/-- Claim C7 as amended: for every nonempty payload whose first byte is
not 0xFF, decoding with the header prepended equals decoding the payload
alone up to the 2-byte offset shift in a reported unexpected-tag error
(successes carry the identical Value). -/
theorem claim_c7_header_equivalence (b : Nat) (rest : List Nat)
    (hb : b ≠ 255) :
    deserialize (255 :: 208 :: b :: rest) =
      shiftHeaderErr (deserialize (b :: rest)) := by
  by_cases h95 : b = 95
  · subst h95; rfl
  by_cases h48 : b = 48
  · subst h48; rfl
  by_cases h84 : b = 84
  · subst h84; rfl
  by_cases h70 : b = 70
  · subst h70; rfl
  simp [deserialize, byteAt, parse, is_version, is_undefined, is_null,
    is_bool, shiftHeaderErr, h95, h48, h84, h70, hb]

/-- Witness for the amended C7 at the boolean-true payload. -/
theorem claim_c7_header_equivalence_witness :
    (84 ≠ 255) ∧
      deserialize [255, 208, 84] = shiftHeaderErr (deserialize [84]) :=
  ⟨by decide, claim_c7_header_equivalence 84 [] (by decide)⟩

/-- Claim C8: uint32 1 encodes to 0xFF, version, 0x55, 0x01 and int32 1 to
0xFF, version, 0x49, 0x02; in general the int32 payload is the varint of
the zig-zag image of the value. -/
theorem claim_c8_small_int_encodings :
    (∀ c32 : List Nat → List Nat,
      to_vec c32 (.gu32 1) = .ok [255, 208, 85, 1]) ∧
    (∀ c32 : List Nat → List Nat,
      to_vec c32 (.gi32 1) = .ok [255, 208, 73, 2]) ∧
    (∀ (c32 : List Nat → List Nat) (n : Int),
      to_vec c32 (.gi32 n) = .ok ([255, 208, 73] ++ varint (zigzag n))) ∧
    zigzag 1 = 2 ∧ zigzag (-1) = 1 ∧ zigzag (-2) = 3 :=
  ⟨fun _ => rfl, fun _ => rfl, fun _ _ => rfl, by decide, by decide, by decide⟩

/-- Claim C9: a char encodes as exactly the three payload bytes 0x22, the
literal length 1, and the code point truncated to its low byte, whatever
the char's UTF-8 width — so chars above U+00FF collide with their low
byte (here U+0100 with U+0000). -/
theorem claim_c9_char_encoding :
    (∀ (c32 : List Nat → List Nat) (c : Nat), c < 1114112 →
      to_vec c32 (.gchar c) = .ok [255, 208, 34, 1, c % 256]) ∧
    (∀ c32 : List Nat → List Nat,
      to_vec c32 (.gchar 256) = to_vec c32 (.gchar 0)) :=
  ⟨fun _ _ _ => rfl, fun _ => rfl⟩

/-- Witness for C9 at U+03B1 (code point 945, low byte 177). -/
theorem claim_c9_char_encoding_witness :
    (945 < 1114112) ∧
      to_vec cast32id (.gchar 945) = .ok [255, 208, 34, 1, 177] :=
  ⟨by decide, claim_c9_char_encoding.1 cast32id 945 (by decide)⟩

/-- Claim C10: i8 and i16 values encode exactly as their i32 widenings
(tag 0x49 plus the width-independent zig-zag varint of the value), and an
f32 encodes exactly as the f64 it casts to (tag 0x4E plus the widened
value's 8 native-order bytes, the cast-and-reinterpret function being
`c32`). -/
theorem claim_c10_widening :
    (∀ (c32 : List Nat → List Nat) (x : Int), -128 ≤ x → x < 128 →
      to_vec c32 (.gi8 x) = to_vec c32 (.gi32 x)) ∧
    (∀ (c32 : List Nat → List Nat) (x : Int), -32768 ≤ x → x < 32768 →
      to_vec c32 (.gi16 x) = to_vec c32 (.gi32 x)) ∧
    (∀ (c32 : List Nat → List Nat) (b : List Nat),
      to_vec c32 (.gf32 b) = to_vec c32 (.gf64 (c32 b))) :=
  ⟨fun _ _ _ _ => rfl, fun _ _ _ _ => rfl, fun _ _ => rfl⟩

/-!
Infrastructure for claim C4: scalar inputs append a fixed byte group and
leave the deferred-length state (start_pos, current_len, lazy_len)
untouched, so a lazy sequence or map of scalars exercises exactly the
deferred-framing machinery and nothing else.
-/

/-- Generic inputs whose serialization is a pure append: every entry point
that neither opens a composite nor can fail. -/
def isPlainScalar : GValue → Bool
  | .gbool _ => true
  | .gi8 _ => true
  | .gi16 _ => true
  | .gi32 _ => true
  | .gi64 _ => true
  | .gu8 _ => true
  | .gu16 _ => true
  | .gu32 _ => true
  | .gu64 _ => true
  | .gf32 _ => true
  | .gf64 _ => true
  | .gchar _ => true
  | .gstr _ => true
  | .gnone => true
  | .gunit => true
  | .gunitStruct => true
  | .gunitVariant _ => true
  | _ => false

/-- The byte group a scalar input appends (read off the corresponding
`serialize_*` method). -/
def scalarEnc (c32 : List Nat → List Nat) : GValue → List Nat
  | .gbool v => [if v then 0x54 else 0x46]
  | .gi8 v => 0x49 :: svarint v
  | .gi16 v => 0x49 :: svarint v
  | .gi32 v => 0x49 :: svarint v
  | .gi64 v => 0x5A :: (varint 17 ++ leBytes 8 (toU64 v))
  | .gu8 v => 0x55 :: varint v
  | .gu16 v => 0x55 :: varint v
  | .gu32 v => 0x55 :: varint v
  | .gu64 v => 0x5A :: (varint 16 ++ leBytes 8 (v % 2 ^ 64))
  | .gf32 v => 0x4E :: c32 v
  | .gf64 v => 0x4E :: v
  | .gchar c => [0x22, 1, c % 256]
  | .gstr v => 0x22 :: (varint v.length ++ v)
  | .gnone => [0x5F]
  | .gunit => [0x5F]
  | .gunitStruct => [0x6F, 0x7B, 0]
  | .gunitVariant variant =>
      0x6F :: 0x22 :: (varint variant.length ++ variant ++ [0x5F, 0x7B, 1])
  | _ => []

/-- All elements of a `GList` are plain scalars. -/
def scalarGList : GList → Bool
  | .nil => true
  | .cons v rest => isPlainScalar v && scalarGList rest

/-- The concatenated byte groups of a scalar element list. -/
def scalarListBytes (c32 : List Nat → List Nat) : GList → List Nat
  | .nil => []
  | .cons v rest => scalarEnc c32 v ++ scalarListBytes c32 rest

/-- All keys and values of a `GEntries` are plain scalars. -/
def scalarGEntries : GEntries → Bool
  | .nil => true
  | .cons k v rest => isPlainScalar k && isPlainScalar v && scalarGEntries rest

/-- The concatenated byte groups of a scalar entry list (key then value). -/
def scalarEntriesBytes (c32 : List Nat → List Nat) : GEntries → List Nat
  | .nil => []
  | .cons k v rest =>
      scalarEnc c32 k ++ scalarEnc c32 v ++ scalarEntriesBytes c32 rest

/-- Serializing a plain scalar appends its byte group and changes nothing
else in the serializer state. -/
theorem serGV_scalar (c32 : List Nat → List Nat) (v : GValue) (s : Serializer)
    (h : isPlainScalar v = true) :
    serGV c32 v s = .ok { s with data := s.data ++ scalarEnc c32 v } := by
  cases v <;> try (exact Bool.noConfusion h)
  all_goals
    (simp [serGV, scalarEnc, serialize_bool, serialize_i8, serialize_i16,
        serialize_i32, serialize_i64, serialize_u8, serialize_u16,
        serialize_u32, serialize_u64, serialize_f32, serialize_f64,
        serialize_char, serialize_str, serialize_none, serialize_unit,
        serialize_unit_struct, serialize_unit_variant, push, extend,
        List.append_assoc] <;> try rfl)

/-- Iterated `Vec::insert` at consecutive positions splices the inserted
bytes in place: starting at the boundary between A and B it produces
A, the bytes, then B (and never hits the out-of-range panic). -/
theorem insert_loop_append (bs A B : List Nat) :
    insert_loop (A ++ B) A.length bs = Option.some (A ++ (bs ++ B)) := by
  induction bs generalizing A with
  | nil => simp [insert_loop]
  | cons b rest ih =>
      rw [insert_loop, if_pos (by simp), List.take_left, List.drop_left]
      have h := ih (A ++ [b])
      simpa [List.append_assoc] using h

/-- The scalar element loop of a deferred-length sequence: with
`current_len` cleared it appends the element byte groups and counts every
element into `lazy_len`. -/
theorem serSeqElems_scalar (c32 : List Nat → List Nat) :
    ∀ (elems : GList) (s : Serializer),
      s.current_len = Option.none → scalarGList elems = true →
      serSeqElems c32 elems s =
        .ok { s with
                data := s.data ++ scalarListBytes c32 elems
                lazy_len := s.lazy_len + elems.length }
  | .nil, s, _, _ => by
      simp [serSeqElems, scalarListBytes, GList.length]
  | .cons v rest, s, hcl, h => by
      obtain ⟨h1, h2⟩ : isPlainScalar v = true ∧ scalarGList rest = true := by
        simpa [scalarGList] using h
      have hv := serGV_scalar c32 v { s with lazy_len := s.lazy_len + 1 } h1
      have hrec := serSeqElems_scalar c32 rest
        { s with
            data := s.data ++ scalarEnc c32 v
            lazy_len := s.lazy_len + 1 }
        (by simpa using hcl) h2
      rw [serSeqElems]
      simp only [hcl] at hv hrec ⊢
      simp [hv, hrec, scalarListBytes, GList.length, List.append_assoc]
      omega

/-- The scalar entry loop of a deferred-length map: with `current_len`
cleared it appends key and value byte groups and counts every entry into
`lazy_len` (the bump happens on `serialize_value`). -/
theorem serMapEntries_scalar (c32 : List Nat → List Nat) :
    ∀ (entries : GEntries) (s : Serializer),
      s.current_len = Option.none → scalarGEntries entries = true →
      serMapEntries c32 entries s =
        .ok { s with
                data := s.data ++ scalarEntriesBytes c32 entries
                lazy_len := s.lazy_len + entries.length }
  | .nil, s, _, _ => by
      simp [serMapEntries, scalarEntriesBytes, GEntries.length]
  | .cons k v rest, s, hcl, h => by
      obtain ⟨⟨h1, h2⟩, h3⟩ :
          (isPlainScalar k = true ∧ isPlainScalar v = true) ∧
            scalarGEntries rest = true := by
        simpa [scalarGEntries] using h
      have hk := serGV_scalar c32 k s h1
      have hv := serGV_scalar c32 v
        { s with
            data := s.data ++ scalarEnc c32 k
            lazy_len := s.lazy_len + 1 } h2
      have hrec := serMapEntries_scalar c32 rest
        { s with
            data := s.data ++ (scalarEnc c32 k ++ scalarEnc c32 v)
            lazy_len := s.lazy_len + 1 }
        (by simpa using hcl) h3
      rw [serMapEntries]
      simp only [hcl, List.append_assoc] at hk hv hrec ⊢
      simp [hk, hv, hrec, scalarEntriesBytes, GEntries.length,
        List.append_assoc]
      omega

/-- Claim C4 counterexample: a deferred-length sequence nested inside a
deferred-length sequence. The inner open clobbers the shared
start_pos/lazy_len state, so the outer close inserts varint 0 at the
inner's reserved position; the output does not have the form the claim
describes (tag 0x41, varint of the one streamed element, payload, close,
varint 1) for any payload. -/
theorem claim_c4_counterexample :
    to_vec cast32id (.gseq false (.cons (.gseq false .nil) .nil)) =
      .ok [255, 208, 65, 65, 0, 0, 36, 0, 0, 36, 0, 0] ∧
    GList.length (.cons (.gseq false .nil) .nil) = 1 ∧
    ¬ ∃ payload : List Nat,
      to_vec cast32id (.gseq false (.cons (.gseq false .nil) .nil)) =
        .ok ([255, 208, 65] ++ varint 1 ++ payload ++ [36, 0] ++ varint 1) := by
  refine ⟨rfl, rfl, ?_⟩
  rintro ⟨payload, h⟩
  rw [show to_vec cast32id (.gseq false (.cons (.gseq false .nil) .nil)) =
    .ok [255, 208, 65, 65, 0, 0, 36, 0, 0, 36, 0, 0] from rfl,
    show varint 1 = [1] from rfl] at h
  simp at h

/-- Claim C4 as amended: for a deferred-length sequence of plain scalars
the encoder does reserve the position after the 0x41 tag, counts streamed
elements, and splices the count's u32 varint there, closing with 0x24,
zero, and the same count varint; for a deferred-length map no position is
reserved at all — the doubled count is simply appended after the 0x3A
close tag. Nested deferred composites (see the counterexample) clobber
the single shared position/counter state and fall outside this form. -/
theorem claim_c4_deferred_length :
    (∀ (c32 : List Nat → List Nat) (elems : GList),
      scalarGList elems = true →
      to_vec c32 (.gseq false elems) =
        .ok ([255, 208, 65] ++ varint (asU32 elems.length) ++
          scalarListBytes c32 elems ++ [36, 0] ++
          varint (asU32 elems.length))) ∧
    (∀ (c32 : List Nat → List Nat) (entries : GEntries),
      scalarGEntries entries = true →
      to_vec c32 (.gmap false entries) =
        .ok ([255, 208, 59] ++ scalarEntriesBytes c32 entries ++
          [58] ++ varint (asU32 (entries.length * 2)))) := by
  constructor
  · intro c32 elems h
    rw [to_vec, serGV]
    rw [show (if (false : Bool) then Option.some (GList.length elems)
      else Option.none) = Option.none from rfl]
    rw [show serialize_seq Option.none
        { data := [0xFF, FORMAT_VERSION], start_pos := 0,
          current_len := Option.none, lazy_len := 0 } =
      { data := [255, 208, 65], start_pos := 3,
        current_len := Option.none, lazy_len := 0 } from rfl]
    rw [serSeqElems_scalar c32 elems _ rfl h]
    have hins := insert_loop_append (varint (asU32 elems.length))
      [255, 208, 65] (scalarListBytes c32 elems)
    simp [List.append_assoc] at hins
    simp [seq_end, hins, push, extend, List.append_assoc]
  · intro c32 entries h
    rw [to_vec, serGV]
    rw [show (if (false : Bool) then Option.some (GEntries.length entries)
      else Option.none) = Option.none from rfl]
    rw [show serialize_map Option.none
        { data := [0xFF, FORMAT_VERSION], start_pos := 0,
          current_len := Option.none, lazy_len := 0 } =
      { data := [255, 208, 59], start_pos := 0,
        current_len := Option.none, lazy_len := 0 } from rfl]
    rw [serMapEntries_scalar c32 entries _ rfl h]
    simp [map_end, push, extend, List.append_assoc]

/-- Witness for the amended C4 at a two-boolean lazy sequence and a
one-entry lazy map. -/
theorem claim_c4_deferred_length_witness :
    scalarGList (.cons (.gbool true) (.cons (.gbool false) .nil)) = true ∧
    to_vec cast32id
        (.gseq false (.cons (.gbool true) (.cons (.gbool false) .nil))) =
      .ok [255, 208, 65, 2, 84, 70, 36, 0, 2] ∧
    scalarGEntries (.cons (.gbool true) (.gbool false) .nil) = true ∧
    to_vec cast32id (.gmap false (.cons (.gbool true) (.gbool false) .nil)) =
      .ok [255, 208, 59, 84, 70, 58, 2] :=
  ⟨by decide, claim_c4_deferred_length.1 cast32id _ (by decide),
    by decide, claim_c4_deferred_length.2 cast32id _ (by decide)⟩

/-!
Infrastructure for claim C5. An input is `noLazy` when no sequence or map
anywhere inside it advertises an unknown length: for such inputs
`current_len` is never cleared, so no composite `end` can hit the
`current_len.unwrap()` panic. `hasBig` detects a byte buffer over the
u32::MAX limit, the single returned-error source of the whole encoder.
-/

mutual

/-- No deferred-length sequence or map occurs in the input. -/
def noLazy : GValue → Bool
  | .gsome v => noLazy v
  | .gnewtypeStruct v => noLazy v
  | .gnewtypeVariant _ v => noLazy v
  | .gseq known elems => known && noLazyList elems
  | .gtuple elems => noLazyList elems
  | .gtupleStruct elems => noLazyList elems
  | .gtupleVariant _ elems => noLazyList elems
  | .gmap known entries => known && noLazyEntries entries
  | .gstruct fields => noLazyFields fields
  | .gstructVariant _ fields => noLazyFields fields
  | _ => true

/-- `noLazy` over a sequence/tuple element list. -/
def noLazyList : GList → Bool
  | .nil => true
  | .cons v rest => noLazy v && noLazyList rest

/-- `noLazy` over map entries. -/
def noLazyEntries : GEntries → Bool
  | .nil => true
  | .cons k v rest => noLazy k && noLazy v && noLazyEntries rest

/-- `noLazy` over struct fields. -/
def noLazyFields : GFields → Bool
  | .nil => true
  | .cons _ v rest => noLazy v && noLazyFields rest

end

mutual

/-- Some raw byte buffer in the input exceeds u32::MAX. -/
def hasBig : GValue → Bool
  | .gbytes v => decide (v.length > U32_MAX)
  | .gsome v => hasBig v
  | .gnewtypeStruct v => hasBig v
  | .gnewtypeVariant _ v => hasBig v
  | .gseq _ elems => hasBigList elems
  | .gtuple elems => hasBigList elems
  | .gtupleStruct elems => hasBigList elems
  | .gtupleVariant _ elems => hasBigList elems
  | .gmap _ entries => hasBigEntries entries
  | .gstruct fields => hasBigFields fields
  | .gstructVariant _ fields => hasBigFields fields
  | _ => false

/-- `hasBig` over a sequence/tuple element list. -/
def hasBigList : GList → Bool
  | .nil => false
  | .cons v rest => hasBig v || hasBigList rest

/-- `hasBig` over map entries. -/
def hasBigEntries : GEntries → Bool
  | .nil => false
  | .cons k v rest => hasBig k || hasBig v || hasBigEntries rest

/-- `hasBig` over struct fields. -/
def hasBigFields : GFields → Bool
  | .nil => false
  | .cons _ v rest => hasBig v || hasBigFields rest

end

/-- How `current_len` can evolve across a successful serialization step
under `noLazy` input: either untouched, or overwritten with a Some (a
composite stores its own advertised length and nothing clears it). -/
def clPreserve (s t : Serializer) : Prop :=
  t.current_len = s.current_len ∨ t.current_len.isSome = true

theorem clPreserve_trans (a b c : Serializer) (h1 : clPreserve a b)
    (h2 : clPreserve b c) : clPreserve a c := by
  rcases h2 with h2 | h2
  · rcases h1 with h1 | h1
    · exact Or.inl (h2.trans h1)
    · exact Or.inr (h2 ▸ h1)
  · exact Or.inr h2

/-- Outcome of a serializer run on `noLazy` input: with an oversized
buffer somewhere it is exactly the size-limit error, otherwise it
succeeds with a `clPreserve`-related state. -/
def GoodRun : Bool → SRes → Serializer → Prop
  | true, r, _ => r = .err bigErr
  | false, r, s => ∃ t, r = .ok t ∧ clPreserve s t

theorem seq_end_of_some (t : Serializer) (m : Nat)
    (hm : t.current_len = Option.some m) :
    seq_end t = .ok (extend (push (push t 0x24) 0x00) (varint (asU32 m))) := by
  simp [seq_end, hm]

theorem tuple_end_of_some (t : Serializer) (m : Nat)
    (hm : t.current_len = Option.some m) :
    tuple_end t = .ok (extend (push (push t 0x24) 0x00) (varint (asU32 m))) := by
  simp [tuple_end, hm]

theorem tuple_struct_end_of_some (t : Serializer) (m : Nat)
    (hm : t.current_len = Option.some m) :
    tuple_struct_end t =
      .ok (extend (push (push t 0x24) 0x00) (varint (asU32 m))) := by
  simp [tuple_struct_end, hm]

theorem tuple_variant_end_of_some (t : Serializer) (m : Nat)
    (hm : t.current_len = Option.some m) :
    tuple_variant_end t =
      .ok (push (push (extend (push (push t 0x24) 0x00) (varint (asU32 m)))
        0x7B) 0x01) := by
  simp [tuple_variant_end, hm]

theorem struct_end_of_some (t : Serializer) (m : Nat)
    (hm : t.current_len = Option.some m) :
    struct_end t = .ok (extend (push t 0x7B) (varint (asU32 m))) := by
  simp [struct_end, hm]

theorem struct_variant_end_of_some (t : Serializer) (m : Nat)
    (hm : t.current_len = Option.some m) :
    struct_variant_end t =
      .ok (push (push (extend (push t 0x7B) (varint (asU32 m))) 0x7B) 0x01) := by
  simp [struct_variant_end, hm]

mutual

/-- On `noLazy` input the serializer errs exactly when an oversized buffer
occurs (and then with the one size-limit message), never panics, and on
success only ever leaves `current_len` untouched or Some. -/
theorem serGV_noLazy (c32 : List Nat → List Nat) :
    ∀ (v : GValue) (s : Serializer), noLazy v = true →
      GoodRun (hasBig v) (serGV c32 v s) s := by
  intro v s h
  cases v with
  | gbool v => exact ⟨_, rfl, Or.inl rfl⟩
  | gi8 v => exact ⟨_, rfl, Or.inl rfl⟩
  | gi16 v => exact ⟨_, rfl, Or.inl rfl⟩
  | gi32 v => exact ⟨_, rfl, Or.inl rfl⟩
  | gi64 v => exact ⟨_, rfl, Or.inl rfl⟩
  | gu8 v => exact ⟨_, rfl, Or.inl rfl⟩
  | gu16 v => exact ⟨_, rfl, Or.inl rfl⟩
  | gu32 v => exact ⟨_, rfl, Or.inl rfl⟩
  | gu64 v => exact ⟨_, rfl, Or.inl rfl⟩
  | gf32 v => exact ⟨_, rfl, Or.inl rfl⟩
  | gf64 v => exact ⟨_, rfl, Or.inl rfl⟩
  | gchar c => exact ⟨_, rfl, Or.inl rfl⟩
  | gstr v => exact ⟨_, rfl, Or.inl rfl⟩
  | gnone => exact ⟨_, rfl, Or.inl rfl⟩
  | gunit => exact ⟨_, rfl, Or.inl rfl⟩
  | gunitStruct => exact ⟨_, rfl, Or.inl rfl⟩
  | gunitVariant variant => exact ⟨_, rfl, Or.inl rfl⟩
  | gbytes v =>
      simp only [hasBig]
      cases hb : decide (v.length > U32_MAX) with
      | true =>
          have hgt : v.length > U32_MAX := of_decide_eq_true hb
          show serialize_bytes v s = .err bigErr
          simp [serialize_bytes, hgt, bigErr]
      | false =>
          have hle : ¬ v.length > U32_MAX := of_decide_eq_false hb
          show ∃ t, serialize_bytes v s = .ok t ∧ clPreserve s t
          exact ⟨extend (extend (push s 0x42) (varint (asU32 v.length))) v,
            by simp [serialize_bytes, hle], Or.inl rfl⟩
  | gsome v => exact serGV_noLazy c32 v s (by simpa [noLazy] using h)
  | gnewtypeStruct v => exact serGV_noLazy c32 v s (by simpa [noLazy] using h)
  | gnewtypeVariant variant v =>
      have hv : noLazy v = true := by simpa [noLazy] using h
      have IH := serGV_noLazy c32 v (serialize_str variant (push s 0x6F)) hv
      simp only [serGV, hasBig]
      cases hbv : hasBig v with
      | true =>
          rw [hbv] at IH
          have IHe : serGV c32 v (serialize_str variant (push s 0x6F)) =
            .err bigErr := IH
          rw [IHe]
          rfl
      | false =>
          rw [hbv] at IH
          obtain ⟨t, hok, hpres⟩ :
              ∃ t, serGV c32 v (serialize_str variant (push s 0x6F)) =
                .ok t ∧ clPreserve (serialize_str variant (push s 0x6F)) t := IH
          rw [hok]
          refine ⟨_, rfl, ?_⟩
          rcases hpres with h1 | h1
          · exact Or.inl h1
          · exact Or.inr h1
  | gseq known elems =>
      obtain ⟨hk, hel⟩ : known = true ∧ noLazyList elems = true := by
        simpa [noLazy] using h
      subst hk
      have IH := serSeqElems_noLazy c32 elems
        (serialize_seq (Option.some elems.length) s) hel
      simp only [serGV, hasBig, if_true]
      cases hbe : hasBigList elems with
      | true =>
          rw [hbe] at IH
          have IHe : serSeqElems c32 elems
              (serialize_seq (Option.some elems.length) s) = .err bigErr := IH
          rw [IHe]
          rfl
      | false =>
          rw [hbe] at IH
          obtain ⟨t, hok, hpres⟩ :
              ∃ t, serSeqElems c32 elems
                  (serialize_seq (Option.some elems.length) s) = .ok t ∧
                clPreserve (serialize_seq (Option.some elems.length) s) t := IH
          rw [hok]
          obtain ⟨m, hm⟩ : ∃ m, t.current_len = Option.some m := by
            rcases hpres with h1 | h1
            · exact ⟨elems.length, h1⟩
            · exact Option.isSome_iff_exists.mp h1
          show GoodRun false (seq_end t) s
          rw [seq_end_of_some t m hm]
          exact ⟨_, rfl, Or.inr (by simp [extend, push, hm])⟩
  | gtuple elems =>
      have hel : noLazyList elems = true := by simpa [noLazy] using h
      have IH := serTupleElems_noLazy c32 elems
        (serialize_tuple elems.length s) hel
      simp only [serGV, hasBig]
      cases hbe : hasBigList elems with
      | true =>
          rw [hbe] at IH
          have IHe : serTupleElems c32 elems (serialize_tuple elems.length s) =
            .err bigErr := IH
          rw [IHe]
          rfl
      | false =>
          rw [hbe] at IH
          obtain ⟨t, hok, hpres⟩ :
              ∃ t, serTupleElems c32 elems (serialize_tuple elems.length s) =
                .ok t ∧ clPreserve (serialize_tuple elems.length s) t := IH
          rw [hok]
          obtain ⟨m, hm⟩ : ∃ m, t.current_len = Option.some m := by
            rcases hpres with h1 | h1
            · exact ⟨elems.length, h1⟩
            · exact Option.isSome_iff_exists.mp h1
          show GoodRun false (tuple_end t) s
          rw [tuple_end_of_some t m hm]
          exact ⟨_, rfl, Or.inr (by simp [extend, push, hm])⟩
  | gtupleStruct elems =>
      have hel : noLazyList elems = true := by simpa [noLazy] using h
      have IH := serTupleElems_noLazy c32 elems
        (serialize_tuple_struct elems.length s) hel
      simp only [serGV, hasBig]
      cases hbe : hasBigList elems with
      | true =>
          rw [hbe] at IH
          have IHe : serTupleElems c32 elems
              (serialize_tuple_struct elems.length s) = .err bigErr := IH
          rw [IHe]
          rfl
      | false =>
          rw [hbe] at IH
          obtain ⟨t, hok, hpres⟩ :
              ∃ t, serTupleElems c32 elems
                  (serialize_tuple_struct elems.length s) = .ok t ∧
                clPreserve (serialize_tuple_struct elems.length s) t := IH
          rw [hok]
          obtain ⟨m, hm⟩ : ∃ m, t.current_len = Option.some m := by
            rcases hpres with h1 | h1
            · exact ⟨elems.length, h1⟩
            · exact Option.isSome_iff_exists.mp h1
          show GoodRun false (tuple_struct_end t) s
          rw [tuple_struct_end_of_some t m hm]
          exact ⟨_, rfl, Or.inr (by simp [extend, push, hm])⟩
  | gtupleVariant variant elems =>
      have hel : noLazyList elems = true := by simpa [noLazy] using h
      have IH := serTupleElems_noLazy c32 elems
        (serialize_tuple_variant variant elems.length s) hel
      simp only [serGV, hasBig]
      cases hbe : hasBigList elems with
      | true =>
          rw [hbe] at IH
          have IHe : serTupleElems c32 elems
              (serialize_tuple_variant variant elems.length s) =
            .err bigErr := IH
          rw [IHe]
          rfl
      | false =>
          rw [hbe] at IH
          obtain ⟨t, hok, hpres⟩ :
              ∃ t, serTupleElems c32 elems
                  (serialize_tuple_variant variant elems.length s) = .ok t ∧
                clPreserve (serialize_tuple_variant variant elems.length s) t :=
            IH
          rw [hok]
          obtain ⟨m, hm⟩ : ∃ m, t.current_len = Option.some m := by
            rcases hpres with h1 | h1
            · exact ⟨elems.length, h1⟩
            · exact Option.isSome_iff_exists.mp h1
          show GoodRun false (tuple_variant_end t) s
          rw [tuple_variant_end_of_some t m hm]
          exact ⟨_, rfl, Or.inr (by simp [extend, push, hm])⟩
  | gmap known entries =>
      obtain ⟨hk, hen⟩ : known = true ∧ noLazyEntries entries = true := by
        simpa [noLazy] using h
      subst hk
      have IH := serMapEntries_noLazy c32 entries
        (serialize_map (Option.some entries.length) s) hen
      simp only [serGV, hasBig, if_true]
      cases hbe : hasBigEntries entries with
      | true =>
          rw [hbe] at IH
          have IHe : serMapEntries c32 entries
              (serialize_map (Option.some entries.length) s) = .err bigErr := IH
          rw [IHe]
          rfl
      | false =>
          rw [hbe] at IH
          obtain ⟨t, hok, hpres⟩ :
              ∃ t, serMapEntries c32 entries
                  (serialize_map (Option.some entries.length) s) = .ok t ∧
                clPreserve (serialize_map (Option.some entries.length) s) t := IH
          rw [hok]
          obtain ⟨m, hm⟩ : ∃ m, t.current_len = Option.some m := by
            rcases hpres with h1 | h1
            · exact ⟨entries.length, h1⟩
            · exact Option.isSome_iff_exists.mp h1
          show GoodRun false (SRes.ok (map_end t)) s
          exact ⟨_, rfl, Or.inr (by simp [map_end, extend, push, hm])⟩
  | gstruct fields =>
      have hf : noLazyFields fields = true := by simpa [noLazy] using h
      have IH := serStructFields_noLazy c32 fields
        (serialize_struct fields.length s) hf
      simp only [serGV, hasBig]
      cases hbe : hasBigFields fields with
      | true =>
          rw [hbe] at IH
          have IHe : serStructFields c32 fields
              (serialize_struct fields.length s) = .err bigErr := IH
          rw [IHe]
          rfl
      | false =>
          rw [hbe] at IH
          obtain ⟨t, hok, hpres⟩ :
              ∃ t, serStructFields c32 fields
                  (serialize_struct fields.length s) = .ok t ∧
                clPreserve (serialize_struct fields.length s) t := IH
          rw [hok]
          obtain ⟨m, hm⟩ : ∃ m, t.current_len = Option.some m := by
            rcases hpres with h1 | h1
            · exact ⟨fields.length, h1⟩
            · exact Option.isSome_iff_exists.mp h1
          show GoodRun false (struct_end t) s
          rw [struct_end_of_some t m hm]
          exact ⟨_, rfl, Or.inr (by simp [extend, push, hm])⟩
  | gstructVariant variant fields =>
      have hf : noLazyFields fields = true := by simpa [noLazy] using h
      have IH := serStructFields_noLazy c32 fields
        (serialize_struct_variant variant fields.length s) hf
      simp only [serGV, hasBig]
      cases hbe : hasBigFields fields with
      | true =>
          rw [hbe] at IH
          have IHe : serStructFields c32 fields
              (serialize_struct_variant variant fields.length s) =
            .err bigErr := IH
          rw [IHe]
          rfl
      | false =>
          rw [hbe] at IH
          obtain ⟨t, hok, hpres⟩ :
              ∃ t, serStructFields c32 fields
                  (serialize_struct_variant variant fields.length s) = .ok t ∧
                clPreserve (serialize_struct_variant variant fields.length s)
                  t := IH
          rw [hok]
          obtain ⟨m, hm⟩ : ∃ m, t.current_len = Option.some m := by
            rcases hpres with h1 | h1
            · exact ⟨fields.length, h1⟩
            · exact Option.isSome_iff_exists.mp h1
          show GoodRun false (struct_variant_end t) s
          rw [struct_variant_end_of_some t m hm]
          exact ⟨_, rfl, Or.inr (by simp [extend, push, hm])⟩

/-- `serGV_noLazy` lifted over the counting seq-element walker. -/
theorem serSeqElems_noLazy (c32 : List Nat → List Nat) :
    ∀ (elems : GList) (s : Serializer), noLazyList elems = true →
      GoodRun (hasBigList elems) (serSeqElems c32 elems s) s := by
  intro elems s h
  cases elems with
  | nil => exact ⟨s, rfl, Or.inl rfl⟩
  | cons v rest =>
      obtain ⟨hv, hrest⟩ : noLazy v = true ∧ noLazyList rest = true := by
        simpa [noLazyList] using h
      simp only [serSeqElems, hasBigList]
      set s1 := if s.current_len.isNone = true
        then { s with lazy_len := s.lazy_len + 1 } else s with hs1
      have hcl1 : s1.current_len = s.current_len := by
        rw [hs1]; split <;> rfl
      have IH := serGV_noLazy c32 v s1 hv
      cases hbv : hasBig v with
      | true =>
          rw [hbv] at IH
          have IHe : serGV c32 v s1 = .err bigErr := IH
          rw [IHe]
          simp only [Bool.true_or]
          rfl
      | false =>
          rw [hbv] at IH
          obtain ⟨t, hok, hpres⟩ :
              ∃ t, serGV c32 v s1 = .ok t ∧ clPreserve s1 t := IH
          rw [hok]
          simp only [Bool.false_or]
          have IH2 := serSeqElems_noLazy c32 rest t hrest
          cases hbr : hasBigList rest with
          | true =>
              rw [hbr] at IH2
              exact IH2
          | false =>
              rw [hbr] at IH2
              obtain ⟨u, hok2, hpres2⟩ :
                  ∃ u, serSeqElems c32 rest t = .ok u ∧ clPreserve t u := IH2
              exact ⟨u, hok2,
                clPreserve_trans s t u
                  (clPreserve_trans s s1 t (Or.inl hcl1) hpres) hpres2⟩

/-- `serGV_noLazy` lifted over the tuple element walker. -/
theorem serTupleElems_noLazy (c32 : List Nat → List Nat) :
    ∀ (elems : GList) (s : Serializer), noLazyList elems = true →
      GoodRun (hasBigList elems) (serTupleElems c32 elems s) s := by
  intro elems s h
  cases elems with
  | nil => exact ⟨s, rfl, Or.inl rfl⟩
  | cons v rest =>
      obtain ⟨hv, hrest⟩ : noLazy v = true ∧ noLazyList rest = true := by
        simpa [noLazyList] using h
      simp only [serTupleElems, hasBigList]
      have IH := serGV_noLazy c32 v s hv
      cases hbv : hasBig v with
      | true =>
          rw [hbv] at IH
          have IHe : serGV c32 v s = .err bigErr := IH
          rw [IHe]
          simp only [Bool.true_or]
          rfl
      | false =>
          rw [hbv] at IH
          obtain ⟨t, hok, hpres⟩ :
              ∃ t, serGV c32 v s = .ok t ∧ clPreserve s t := IH
          rw [hok]
          simp only [Bool.false_or]
          have IH2 := serTupleElems_noLazy c32 rest t hrest
          cases hbr : hasBigList rest with
          | true =>
              rw [hbr] at IH2
              exact IH2
          | false =>
              rw [hbr] at IH2
              obtain ⟨u, hok2, hpres2⟩ :
                  ∃ u, serTupleElems c32 rest t = .ok u ∧ clPreserve t u := IH2
              exact ⟨u, hok2, clPreserve_trans s t u hpres hpres2⟩

/-- `serGV_noLazy` lifted over the map entry walker. -/
theorem serMapEntries_noLazy (c32 : List Nat → List Nat) :
    ∀ (entries : GEntries) (s : Serializer), noLazyEntries entries = true →
      GoodRun (hasBigEntries entries) (serMapEntries c32 entries s) s := by
  intro entries s h
  cases entries with
  | nil => exact ⟨s, rfl, Or.inl rfl⟩
  | cons k v rest =>
      obtain ⟨hk, hv, hrest⟩ :
          noLazy k = true ∧ noLazy v = true ∧ noLazyEntries rest = true := by
        simpa [noLazyEntries, and_assoc] using h
      simp only [serMapEntries, hasBigEntries]
      have IHk := serGV_noLazy c32 k s hk
      cases hbk : hasBig k with
      | true =>
          rw [hbk] at IHk
          have IHe : serGV c32 k s = .err bigErr := IHk
          rw [IHe]
          simp only [Bool.true_or]
          rfl
      | false =>
          rw [hbk] at IHk
          obtain ⟨t, hokk, hpresk⟩ :
              ∃ t, serGV c32 k s = .ok t ∧ clPreserve s t := IHk
          rw [hokk]
          simp only [Bool.false_or]
          set t1 := if t.current_len.isNone = true
            then { t with lazy_len := t.lazy_len + 1 } else t with ht1
          have hclt1 : t1.current_len = t.current_len := by
            rw [ht1]; split <;> rfl
          have IHv := serGV_noLazy c32 v t1 hv
          cases hbv : hasBig v with
          | true =>
              rw [hbv] at IHv
              have IHe : serGV c32 v t1 = .err bigErr := IHv
              rw [IHe]
              simp only [Bool.true_or]
              rfl
          | false =>
              rw [hbv] at IHv
              obtain ⟨u, hokv, hpresv⟩ :
                  ∃ u, serGV c32 v t1 = .ok u ∧ clPreserve t1 u := IHv
              rw [hokv]
              simp only [Bool.false_or]
              have IH2 := serMapEntries_noLazy c32 rest u hrest
              cases hbr : hasBigEntries rest with
              | true =>
                  rw [hbr] at IH2
                  exact IH2
              | false =>
                  rw [hbr] at IH2
                  obtain ⟨w, hok2, hpres2⟩ :
                      ∃ w, serMapEntries c32 rest u = .ok w ∧
                        clPreserve u w := IH2
                  refine ⟨w, hok2, ?_⟩
                  have c1 : clPreserve s t1 :=
                    clPreserve_trans s t t1 hpresk (Or.inl hclt1)
                  exact clPreserve_trans s u w
                    (clPreserve_trans s t1 u c1 hpresv) hpres2

/-- `serGV_noLazy` lifted over the struct field walker. -/
theorem serStructFields_noLazy (c32 : List Nat → List Nat) :
    ∀ (fields : GFields) (s : Serializer), noLazyFields fields = true →
      GoodRun (hasBigFields fields) (serStructFields c32 fields s) s := by
  intro fields s h
  cases fields with
  | nil => exact ⟨s, rfl, Or.inl rfl⟩
  | cons key v rest =>
      obtain ⟨hv, hrest⟩ : noLazy v = true ∧ noLazyFields rest = true := by
        simpa [noLazyFields] using h
      simp only [serStructFields, hasBigFields]
      have IH := serGV_noLazy c32 v (serialize_str key s) hv
      cases hbv : hasBig v with
      | true =>
          rw [hbv] at IH
          have IHe : serGV c32 v (serialize_str key s) = .err bigErr := IH
          rw [IHe]
          simp only [Bool.true_or]
          rfl
      | false =>
          rw [hbv] at IH
          obtain ⟨t, hok, hpres⟩ :
              ∃ t, serGV c32 v (serialize_str key s) = .ok t ∧
                clPreserve (serialize_str key s) t := IH
          rw [hok]
          simp only [Bool.false_or]
          have IH2 := serStructFields_noLazy c32 rest t hrest
          cases hbr : hasBigFields rest with
          | true =>
              rw [hbr] at IH2
              exact IH2
          | false =>
              rw [hbr] at IH2
              obtain ⟨u, hok2, hpres2⟩ :
                  ∃ u, serStructFields c32 rest t = .ok u ∧
                    clPreserve t u := IH2
              refine ⟨u, hok2, ?_⟩
              have c1 : clPreserve s t := by
                rcases hpres with h1 | h1
                · exact Or.inl h1
                · exact Or.inr h1
              exact clPreserve_trans s t u c1 hpres2

end

/-- Claim C5 counterexample: encoding a tuple whose single element is an
unknown-length sequence panics — the nested `serialize_seq(None)` clears
`current_len`, and `SerializeTuple::end` unwraps it — although the input
contains no byte buffer at all. A panic is neither an Ok nor the
size-limit error, so encode can fail in a way the claim excludes. -/
theorem claim_c5_counterexample :
    to_vec cast32id (.gtuple (.cons (.gseq false .nil) .nil)) =
      EncodeResult.panic ∧
    (∀ bytes : List Nat, EncodeResult.panic ≠ EncodeResult.ok bytes) ∧
    (∀ e : Error, EncodeResult.panic ≠ EncodeResult.err e) :=
  ⟨rfl, fun _ => by simp, fun _ => by simp⟩

/-- Claim C5 as amended: for inputs containing no unknown-length sequence
or map, encoding returns the size-limit error exactly when the input
contains a raw byte buffer longer than u32::MAX (and no other error ever),
otherwise it returns Ok, and it never panics. Inputs that nest an
unknown-length sequence or map inside a tuple-like or struct-like
composite can instead panic on `current_len.unwrap()` (see the
counterexample), which the claim as stated does not allow. -/
theorem claim_c5_error_characterization (c32 : List Nat → List Nat)
    (v : GValue) (h : noLazy v = true) :
    ((∃ bytes, to_vec c32 v = .ok bytes) ↔ hasBig v = false) ∧
    (hasBig v = true ↔ to_vec c32 v = .err bigErr) ∧
    (∀ e, to_vec c32 v = .err e → e = bigErr) ∧
    to_vec c32 v ≠ .panic := by
  have H := serGV_noLazy c32 v
    { data := [0xFF, FORMAT_VERSION], start_pos := 0,
      current_len := Option.none, lazy_len := 0 } h
  cases hb : hasBig v with
  | true =>
      rw [hb] at H
      have He : serGV c32 v
          { data := [0xFF, FORMAT_VERSION], start_pos := 0,
            current_len := Option.none, lazy_len := 0 } = .err bigErr := H
      have ht : to_vec c32 v = .err bigErr := by
        unfold to_vec
        rw [He]
      refine ⟨?_, ⟨fun _ => ht, fun _ => rfl⟩, ?_, ?_⟩
      · constructor
        · rintro ⟨bytes, hbytes⟩
          rw [ht] at hbytes
          exact EncodeResult.noConfusion hbytes
        · intro hf
          exact Bool.noConfusion hf
      · intro e he
        rw [ht] at he
        exact (EncodeResult.err.inj he).symm
      · rw [ht]
        simp
  | false =>
      rw [hb] at H
      obtain ⟨t, hok, _⟩ :
          ∃ t, serGV c32 v
              { data := [0xFF, FORMAT_VERSION], start_pos := 0,
                current_len := Option.none, lazy_len := 0 } = .ok t ∧
            clPreserve
              { data := [0xFF, FORMAT_VERSION], start_pos := 0,
                current_len := Option.none, lazy_len := 0 } t := H
      have ht : to_vec c32 v = .ok t.data := by
        unfold to_vec
        rw [hok]
      refine ⟨⟨fun _ => rfl, fun _ => ⟨t.data, ht⟩⟩, ?_, ?_, ?_⟩
      · constructor
        · intro hf
          exact Bool.noConfusion hf
        · intro he
          rw [ht] at he
          exact EncodeResult.noConfusion he
      · intro e he
        rw [ht] at he
        exact EncodeResult.noConfusion he
      · rw [ht]
        simp

/-- Witness for the amended C5 at the boolean input true (no lazy
composite, no oversized buffer, so encode must succeed). -/
theorem claim_c5_error_characterization_witness :
    noLazy (.gbool true) = true ∧
      (∃ bytes, to_vec cast32id (.gbool true) = .ok bytes) :=
  ⟨by decide,
    (claim_c5_error_characterization cast32id (.gbool true) (by decide)).1.mpr
      (by decide)⟩

/-- Claim C6 counterexample: for the 64-bit value 1 the tag 0x5A payload
starts with the varint header byte 17 — bit 0 is set although the value is
nonnegative (the serde path sets the sign flag unconditionally for i64),
and the remaining bits encode 8, not the claimed 2; the header the claim
describes (sign 0, remaining bits 2) would be the byte 4. For -1 the
trailing bytes are the two's complement, not the magnitude. -/
theorem claim_c6_counterexample :
    to_vec cast32id (.gi64 1) =
      .ok [255, 208, 90, 17, 1, 0, 0, 0, 0, 0, 0, 0] ∧
    varint 17 = [17] ∧
    (17 % 2 = 1 ∧ ¬ ((1 : Int) < 0)) ∧
    (17 / 2 = 8 ∧ (8 : Nat) ≠ 2) ∧
    varint (2 * 2) = [4] ∧ (17 : Nat) ≠ 4 ∧
    to_vec cast32id (.gi64 (-1)) =
      .ok ([255, 208, 90, 17] ++ List.replicate 8 255) ∧
    leBytes 8 (toU64 (-1)) ≠ leBytes 8 1 :=
  ⟨rfl, rfl, ⟨rfl, by decide⟩, ⟨rfl, by decide⟩, rfl, by decide, rfl, by decide⟩

/-- Claim C6 as amended: the bigint payload is a varint header whose low
bit is the signedness flag — set unconditionally on the serde i64 path,
clear on the u64 path, and equal to the actual sign only in the old Value
writer — and whose remaining bits encode 8, the fixed magnitude width in
bytes (the source builds the flags as 8 * 2); the 8 trailing bytes are the
value's 64-bit two's-complement little-endian image, not its magnitude. -/
theorem claim_c6_bigint_header :
    (∀ (c32 : List Nat → List Nat) (v : Int),
      to_vec c32 (.gi64 v) =
        .ok ([255, 208, 90] ++ varint (2 * 8 + 1) ++ leBytes 8 (toU64 v))) ∧
    (∀ (c32 : List Nat → List Nat) (v : Nat), v < 2 ^ 64 →
      to_vec c32 (.gu64 v) =
        .ok ([255, 208, 90] ++ varint (2 * 8) ++ leBytes 8 v)) ∧
    (∀ (v : Int) (data : List Nat),
      write_bigint v data =
        data ++ 90 :: (varint (2 * 8 + (if v < 0 then 1 else 0)) ++
          leBytes 8 (toU64 v))) := by
  refine ⟨fun c32 v => rfl, fun c32 v hv => ?_, fun v data => ?_⟩
  · have hl : Nat.lor 0 (8 * 2) = 16 := rfl
    have hm : v % 18446744073709551616 = v := Nat.mod_eq_of_lt (by omega)
    simp [to_vec, serGV, serialize_u64, extend, push, hl, FORMAT_VERSION, hm]
  · have h17 : Nat.lor (Nat.lor 0 1) (8 * 2) = 17 := rfl
    have h16 : Nat.lor 0 (8 * 2) = 16 := rfl
    by_cases h : v < 0 <;> simp [write_bigint, h, h17, h16]

/-- Witness for the amended C6 at the u64 value 1. -/
theorem claim_c6_bigint_header_witness :
    (1 < 2 ^ 64) ∧
      to_vec cast32id (.gu64 1) =
        .ok [255, 208, 90, 16, 1, 0, 0, 0, 0, 0, 0, 0] :=
  ⟨by decide, claim_c6_bigint_header.2.1 cast32id 1 (by decide)⟩

/-- Witness for C10 at i8 value 5, i16 value 300, and a concrete f32
representation. -/
theorem claim_c10_widening_witness :
    ((-128 : Int) ≤ 5 ∧ (5 : Int) < 128 ∧
      to_vec cast32id (.gi8 5) = to_vec cast32id (.gi32 5)) ∧
    ((-32768 : Int) ≤ 300 ∧ (300 : Int) < 32768 ∧
      to_vec cast32id (.gi16 300) = to_vec cast32id (.gi32 300)) ∧
    to_vec cast32id (.gf32 [1, 2, 3, 4]) =
      to_vec cast32id (.gf64 (cast32id [1, 2, 3, 4])) :=
  ⟨⟨by decide, by decide, claim_c10_widening.1 cast32id 5 (by decide) (by decide)⟩,
    ⟨by decide, by decide,
      claim_c10_widening.2.1 cast32id 300 (by decide) (by decide)⟩,
    claim_c10_widening.2.2 cast32id [1, 2, 3, 4]⟩

end V8
